import Mathlib

/-!
Verification of the Firestore source connector
(`source_firestore/source.py`) against its specification.

The embedding models Python values by the inductive type `PyVal`
(dictionaries as association lists in insertion order, which is how
Python dictionaries behave), `datetime` objects by the string that
`datetime.isoformat()` would print for them (chronological comparison
of uniformly-formatted UTC instants coincides with lexicographic
comparison of these strings, and no claim depends on anything finer),
and Python floats by rationals.  Functions keep the source's names.
-/

namespace Firestore

/-- Python runtime values, as used by the connector: `None`, booleans,
integers, floats (modelled by rationals), strings, lists, dictionaries
(association lists in insertion order) and `datetime` objects (modelled
by their `isoformat()` string). -/
inductive PyVal where
  | pyNone
  | pyBool (b : Bool)
  | pyInt (n : Int)
  | pyFloat (q : Rat)
  | pyStr (s : String)
  | pyList (xs : List PyVal)
  | pyDict (kvs : List (String × PyVal))
  | pyDatetime (iso : String)

/-- Python `d.get(k)` / `k in d` on a dictionary: first binding of `k`
(keys of dictionaries built by the connector are unique, so "first"
is immaterial). -/
def assocLookup {α : Type} (k : String) : List (String × α) → Option α
  | [] => none
  | (k', v) :: rest => if k' = k then some v else assocLookup k rest

/-- Python `d[k] = v`: overwrite in place when the key is present,
append otherwise. -/
def dictInsert {α : Type} : List (String × α) → String → α → List (String × α)
  | [], k, v => [(k, v)]
  | (k', v') :: rest, k, v =>
      if k' = k then (k, v) :: rest else (k', v') :: dictInsert rest k v

/-- Python `del d[k]` (keys are unique in the dictionaries the
connector deletes from, so removing the first binding is exact). -/
def eraseKey {α : Type} (k : String) : List (String × α) → List (String × α)
  | [] => []
  | (k', v) :: rest => if k' = k then rest else (k', v) :: eraseKey k rest

/-- Python truthiness, as used by `if timestamp_state`,
`if next_page_token`, `if self._cursor_value` and `bool(...)`. -/
def pyTruthy : PyVal → Bool
  | .pyNone => false
  | .pyBool b => b
  | .pyInt n => n != 0
  | .pyFloat q => q != 0
  | .pyStr s => s != ""
  | .pyList xs => !xs.isEmpty
  | .pyDict kvs => !kvs.isEmpty
  | .pyDatetime _ => true

/-- `date.replace("Z", "+00:00")` on the character list of the string:
Python's `str.replace` rewrites every occurrence of the one-character
pattern `"Z"`. -/
def replaceZChars : List Char → List Char
  | [] => []
  | c :: rest =>
      if c = 'Z' then '+' :: '0' :: '0' :: ':' :: '0' :: '0' :: replaceZChars rest
      else c :: replaceZChars rest

/-- `Helpers.parse_date`: `datetime.fromisoformat(date.replace("Z", "+00:00"))`,
returning the datetime modelled by its isoformat string (for strings
already in isoformat-with-offset shape, `fromisoformat` followed by
`isoformat` is the identity; `fromisoformat` raising `ValueError` on
junk input is outside the model, no claim exercises it). -/
def parse_date (s : String) : String :=
  String.mk (replaceZChars s.data)

mutual

/-- Structural size of a `PyVal`, used as recursion fuel for the
resolver and the schema-inference function. -/
def pySize : PyVal → Nat
  | .pyNone => 1
  | .pyBool _ => 1
  | .pyInt _ => 1
  | .pyFloat _ => 1
  | .pyStr _ => 1
  | .pyList xs => 1 + pySizeList xs
  | .pyDict kvs => 1 + pySizeFields kvs
  | .pyDatetime _ => 1

/-- Size of a list of values. -/
def pySizeList : List PyVal → Nat
  | [] => 0
  | x :: rest => 1 + pySize x + pySizeList rest

/-- Size of an association list of values. -/
def pySizeFields : List (String × PyVal) → Nat
  | [] => 0
  | (_, v) :: rest => 1 + pySize v + pySizeFields rest

end

/-- Decimal digit value of a character (non-digits do not occur in
the wire format's integer strings). -/
def pyDigit : Char → Nat
  | '0' => 0
  | '1' => 1
  | '2' => 2
  | '3' => 3
  | '4' => 4
  | '5' => 5
  | '6' => 6
  | '7' => 7
  | '8' => 8
  | '9' => 9
  | _ => 0

/-- Accumulating decimal reading of a digit list. -/
def pyDigits : List Char → Nat → Nat
  | [], acc => acc
  | c :: rest, acc => pyDigits rest (acc * 10 + pyDigit c)

/-- Python `int(s)` on the optionally-signed decimal strings the wire
format carries (`int` raising on any other string is outside the
model). -/
def pyIntOfStr (s : String) : Int :=
  match s.data with
  | '-' :: rest => -(pyDigits rest 0 : Int)
  | l => (pyDigits l 0 : Int)

/-- Python `int(x)` as applied by `resolve_value` to the value under
`"integerValue"`: the wire format carries integers as decimal strings.
(The cases where `x` is not a string or a number raise in Python and
are outside the model: no claim exercises them.) -/
def pyIntConv : PyVal → PyVal
  | .pyStr s => .pyInt (pyIntOfStr s)
  | .pyInt n => .pyInt n
  | .pyBool b => .pyInt (if b then 1 else 0)
  | _ => .pyNone

/-- Python `float(x)` as applied by `resolve_value` to the value under
`"doubleValue"` (a JSON number on the wire). -/
def pyFloatConv : PyVal → PyVal
  | .pyFloat q => .pyFloat q
  | .pyInt n => .pyFloat n
  | .pyBool b => .pyFloat (if b then 1 else 0)
  | _ => .pyNone

/-- `Helpers.parse_date` as applied by `resolve_value` to the value
under `"timestampValue"` (a string on the wire; `parse_date` on a
non-string raises in Python and is outside the model). -/
def pyParseDate : PyVal → PyVal
  | .pyStr s => .pyDatetime (parse_date s)
  | _ => .pyNone

/-- `v["arrayValue"].get("values", [])`: the elements of an
`arrayValue`.  A non-dictionary `arrayValue` or a non-list `values`
would fail in Python and is outside the model (empty list here). -/
def arrayElems : PyVal → List PyVal
  | .pyDict kvs =>
      match assocLookup "values" kvs with
      | some (.pyList xs) => xs
      | _ => []
  | _ => []

/-- `v["mapValue"].get("fields", {}).items()`: the fields of a
`mapValue` (same caveats as `arrayElems`). -/
def mapFields : PyVal → List (String × PyVal)
  | .pyDict kvs =>
      match assocLookup "fields" kvs with
      | some (.pyDict fs) => fs
      | _ => []
  | _ => []

/-- `resolve_value`, written with explicit structural fuel so that it
is structurally recursive and reduces definitionally; `pySize` of the
input bounds the recursion depth, see `resolveFuel_irrel`.  The chain
of `in` tests follows the source order: arrayValue, mapValue,
integerValue, doubleValue, booleanValue, timestampValue, stringValue,
nullValue, and falls through to returning the input unchanged.
`bool(x)` is Python truthiness.  A non-dictionary input never reaches
`resolve_value` in the source (wire values are JSON objects); it is
returned unchanged here. -/
def resolveFuel : Nat → PyVal → PyVal
  | 0, v => v
  | fuel + 1, v =>
    match v with
    | .pyDict kvs =>
      match assocLookup "arrayValue" kvs with
      | some av => .pyList ((arrayElems av).map (resolveFuel fuel))
      | none =>
      match assocLookup "mapValue" kvs with
      | some mv => .pyDict ((mapFields mv).map (fun kv => (kv.1, resolveFuel fuel kv.2)))
      | none =>
      match assocLookup "integerValue" kvs with
      | some iv => pyIntConv iv
      | none =>
      match assocLookup "doubleValue" kvs with
      | some dv => pyFloatConv dv
      | none =>
      match assocLookup "booleanValue" kvs with
      | some bv => .pyBool (pyTruthy bv)
      | none =>
      match assocLookup "timestampValue" kvs with
      | some tv => pyParseDate tv
      | none =>
      match assocLookup "stringValue" kvs with
      | some sv => sv
      | none =>
      match assocLookup "nullValue" kvs with
      | some _ => .pyNone
      | none => v
    | _ => v

/-- `resolve_value` from the source: converts a tagged wire-format
value to a native value. -/
def resolve_value (v : PyVal) : PyVal := resolveFuel (pySize v) v

/-- `get_json_schema_type`, with structural fuel like `resolveFuel`.
The source checks `isinstance` in the order str, int, float, bool,
list, dict; Python's `bool` is a subclass of `int`, so a boolean
passes the `isinstance(value, int)` test and yields `"integer"` —
the later `isinstance(value, bool)` branch is unreachable.  A value
matching no branch (datetime, `None`) falls off the function and
yields Python `None`. -/
def schemaFuel : Nat → PyVal → PyVal
  | 0, _ => .pyNone
  | fuel + 1, v =>
    match v with
    | .pyStr _ => .pyDict [("type", .pyStr "string")]
    | .pyBool _ => .pyDict [("type", .pyStr "integer")]
    | .pyInt _ => .pyDict [("type", .pyStr "integer")]
    | .pyFloat _ => .pyDict [("type", .pyStr "number")]
    | .pyList [] => .pyDict [("type", .pyStr "array"), ("items", .pyDict [("type", .pyStr "null")])]
    | .pyList (x :: _) => .pyDict [("type", .pyStr "array"), ("items", schemaFuel fuel x)]
    | .pyDict kvs =>
        .pyDict [("type", .pyStr "object"),
                 ("properties", .pyDict (kvs.map (fun kv => (kv.1, schemaFuel fuel kv.2))))]
    | _ => .pyNone

/-- `get_json_schema_type` from the source: infers a JSON-Schema
fragment from a native value. -/
def get_json_schema_type (v : PyVal) : PyVal := schemaFuel (pySize v) v

/-- `"document" in entry` combined with `entry["document"]`. -/
def documentOf (entry : PyVal) : Option PyVal :=
  match entry with
  | .pyDict kvs => assocLookup "document" kvs
  | _ => none

/-- `entry["document"]["name"]` (a missing `name` raises `KeyError` in
Python; the claims only concern well-formed responses, modelled here
as a `None` default). -/
def docName (doc : PyVal) : PyVal :=
  match doc with
  | .pyDict kvs => (assocLookup "name" kvs).getD .pyNone
  | _ => .pyNone

/-- `dict(entry["document"]["fields"]).items()` (missing `fields`
raises in Python; modelled as empty). -/
def docFields (doc : PyVal) : List (String × PyVal) :=
  match doc with
  | .pyDict kvs =>
      match assocLookup "fields" kvs with
      | some (.pyDict fs) => fs
      | _ => []
  | _ => []

/-- The record built for one document by `parse_response`:
`result = {"name": ...}` followed by `result[key] = resolve_value(value)`
for each field, in order — a Python dictionary assignment, so a field
literally named `"name"` overwrites the document path. -/
def recordOfDoc (doc : PyVal) : List (String × PyVal) :=
  (docFields doc).foldl (fun r kv => dictInsert r kv.1 (resolve_value kv.2))
    [("name", docName doc)]

/-- The `(key, get_json_schema_type(result[key]))` pairs appended to
`self.fields` while `parse_response` processes one document, in field
order. -/
def schemaEntriesOfDoc (doc : PyVal) : List (String × PyVal) :=
  (docFields doc).map (fun kv => (kv.1, get_json_schema_type (resolve_value kv.2)))

/-- `FirestoreStream.parse_response` with its side effect on
`self.fields` made explicit: the loop over the response entries,
keeping one record per entry that has a `"document"` key and appending
each field's `(name, inferred schema)` pair to the fields list. -/
def parse_response_full (data : List PyVal) (fields0 : List (String × PyVal)) :
    List (List (String × PyVal)) × List (String × PyVal) :=
  data.foldl
    (fun acc entry =>
      match documentOf entry with
      | some doc => (acc.1 ++ [recordOfDoc doc], acc.2 ++ schemaEntriesOfDoc doc)
      | none => acc)
    ([], fields0)

/-- The records produced by `parse_response` (its return value). -/
def parse_response (data : List PyVal) : List (List (String × PyVal)) :=
  (parse_response_full data []).1

/-- The value computed by `FirestoreStream.next_page_token`:
`documents = list(self.parse_response(response))`; `None` when the
list is empty, `None` when `self.cursor_key is None`, otherwise
`{"timestampValue": documents[-1][self.cursor_key]}` (the record's
resolved cursor-field value, unformatted; a missing key raises in
Python and is modelled as a `None` default). -/
def next_page_token_value (ck : Option String) (data : List PyVal) : Option PyVal :=
  match (parse_response data).getLast? with
  | none => none
  | some lastDoc =>
      match ck with
      | none => none
      | some k => some (.pyDict [("timestampValue", (assocLookup k lastDoc).getD .pyNone)])

/-- The state of `self.fields` after a page has been handled by the
framework loop: one `parse_response` pass when the records are parsed
for emission, then a second pass performed inside `next_page_token`. -/
def processPageFields (data : List PyVal) (fields0 : List (String × PyVal)) :
    List (String × PyVal) :=
  (parse_response_full data (parse_response_full data fields0).2).2

/-- `Helpers.page_size`. -/
def page_size : Nat := 100

/-- The `timestamp_value` local of `FirestoreStream.request_body_json`:
`stream_state.get(self.cursor_key) if self.cursor_key else None`, then
`Helpers.parse_date(timestamp_state).isoformat() if timestamp_state
else None` (the `if` is Python truthiness, so an empty string also
yields `None`; `isoformat` is the identity in this model of datetimes). -/
def timestampValueOf (ck : Option String) (st : List (String × String)) : Option String :=
  match ck with
  | none => none
  | some k =>
      match assocLookup k st with
      | some s => if s = "" then none else some (parse_date s)
      | none => none

/-- `self.cursor_key` as a JSON value (`None` serializes to null). -/
def keyVal : Option String → PyVal
  | some k => .pyStr k
  | none => .pyNone

/-- `FirestoreStream.request_body_json`: builds the structured-query
body.  The dictionary literal always contains the keys `from`,
`where`, `orderBy`, `startAt` in that order, with `where` and
`startAt` bound to `None` when their conditions fail; afterwards
`where` and `orderBy` are deleted when `self.cursor_key is None or
timestamp_value is None`.  `startAt` is never deleted. -/
def request_body_json (collection : String) (ck : Option String)
    (st : List (String × String)) (token : Option PyVal) : PyVal :=
  let tv := timestampValueOf ck st
  let whereClause : PyVal :=
    match tv with
    | some t =>
        .pyDict [("fieldFilter", .pyDict
          [("field", .pyDict [("fieldPath", keyVal ck)]),
           ("op", .pyStr "GREATER_THAN"),
           ("value", .pyDict [("timestampValue", .pyStr t)])])]
    | none => .pyNone
  let startAtClause : PyVal :=
    match token with
    | some t =>
        if pyTruthy t then .pyDict [("values", .pyList [t]), ("before", .pyBool false)]
        else .pyNone
    | none => .pyNone
  let sq :=
    [("from", PyVal.pyList [.pyDict [("collectionId", .pyStr collection),
                                     ("allDescendants", .pyBool true)]]),
     ("where", whereClause),
     ("orderBy", PyVal.pyList [.pyDict [("field", .pyDict [("fieldPath", keyVal ck)]),
                                        ("direction", .pyStr "ASCENDING")]]),
     ("startAt", startAtClause)]
  let sq' := if ck = none ∨ tv = none then eraseKey "orderBy" (eraseKey "where" sq) else sq
  .pyDict [("structuredQuery", .pyDict sq')]

/-- The `structuredQuery` association list inside a request body. -/
def structuredQueryOf (body : PyVal) : List (String × PyVal) :=
  match body with
  | .pyDict [("structuredQuery", .pyDict sq)] => sq
  | _ => []

/-- One step of the cursor update in
`IncrementalFirestoreStream.read_records`, run after each yielded
record when a cursor key is configured:
`max(record_date, self._cursor_value) if self._cursor_value else
record_date` (a datetime is always truthy, so the condition is exactly
a `None` test). -/
def updateCursor (cur : Option String) (v : String) : Option String :=
  match cur with
  | some c => some (max v c)
  | none => some v

/-- The tracked cursor value after the read loop of
`IncrementalFirestoreStream.read_records` has processed, in order, the
records whose parsed cursor-field values are `vs`. -/
def trackCursor (init : Option String) (vs : List String) : Option String :=
  vs.foldl updateCursor init

/-- Comparison of tracked cursor states: an absent value is below
everything, present values compare as datetimes. -/
def cursorLE : Option String → Option String → Prop
  | none, _ => True
  | some _, none => False
  | some a, some b => a ≤ b

/-- The `state` property getter of `IncrementalFirestoreStream`:
`{ self.cursor_key: self._cursor_value.isoformat() } if
self._cursor_value else {}` (with a cursor key configured). -/
def get_state (ck : String) (cv : Option String) : List (String × String) :=
  match cv with
  | some d => [(ck, d)]
  | none => []

/-- The `state` property setter: `new_cursor_value =
value.get(self.cursor_key, self.start_date)`, then parse it when it is
a string (a persisted value always is), else keep it as is (the
fallback `start_date`, itself an optional datetime). -/
def set_state (ck : String) (startDate : Option String)
    (persisted : List (String × String)) : Option String :=
  match assocLookup ck persisted with
  | some s => some (parse_date s)
  | none => startDate

/-- Modelled from the spec: the page loop that drives
`parse_response`/`next_page_token` lives in the external framework
(`HttpStream.read_records`), not in this repository.  Spec §4.3/§4.4:
issue one fetch per page, emit the parsed records of each response
(record-at-a-time, passed through unchanged by
`IncrementalFirestoreStream.read_records`), and continue with the next
pagination token until it is absent.  Token computation is the
source's `next_page_token_value`. -/
def drainPages (ck : Option String) : List (List PyVal) → List (List (String × PyVal)) × Nat
  | [] => ([], 0)
  | resp :: rest =>
      match next_page_token_value ck resp with
      | none => (parse_response resp, 1)
      | some _ =>
          let step := drainPages ck rest
          (parse_response resp ++ step.1, step.2 + 1)

/-- The sync-level view of `FirestoreStream.fields`: in the source,
`fields: List[str] = []` is a class attribute of `FirestoreStream`
that no `__init__` rebinds, so every stream instance's `self.fields`
is the same list object, and `self.fields.append(...)` mutates it for
all of them.  The world holds that single shared list together with
the per-collection streams. -/
structure StreamsWorld where
  sharedFields : List (String × PyVal)
  collections : List String

/-- Reading `self.fields` on the stream at index `i`: attribute lookup
finds the class attribute, the one shared list, whichever stream is
asked. -/
def fieldsOf (w : StreamsWorld) (_i : Nat) : List (String × PyVal) :=
  w.sharedFields

/-- Running `parse_response` on the stream at index `i`: the records
are returned and the schema entries are appended to the shared class
attribute. -/
def parseOn (w : StreamsWorld) (_i : Nat) (data : List PyVal) :
    StreamsWorld × List (List (String × PyVal)) :=
  let out := parse_response_full data w.sharedFields
  ({ w with sharedFields := out.2 }, out.1)

/-- A well-formed response entry: one document at path `p/d1` with a
single string field `f`. -/
def sampleEntry : PyVal :=
  .pyDict [("document", .pyDict
    [("name", .pyStr "projects/p/databases/d/documents/c/d1"),
     ("fields", .pyDict [("f", .pyDict [("stringValue", .pyStr "v")])])])]

/-- A response entry whose document carries a field literally named
`"name"`. -/
def nameFieldEntry : PyVal :=
  .pyDict [("document", .pyDict
    [("name", .pyStr "projects/p/databases/d/documents/c/d2"),
     ("fields", .pyDict [("name", .pyDict [("stringValue", .pyStr "zzz")])])])]

theorem replaceZChars_no_Z (l : List Char) : 'Z' ∉ replaceZChars l := by
  induction l with
  | nil => simp [replaceZChars]
  | cons c rest ih =>
      by_cases hc : c = 'Z'
      · subst hc
        simpa [replaceZChars] using ih
      · simp only [replaceZChars, if_neg hc, List.mem_cons, not_or]
        exact ⟨fun h => hc h.symm, ih⟩

theorem replaceZChars_id {l : List Char} (h : 'Z' ∉ l) : replaceZChars l = l := by
  induction l with
  | nil => rfl
  | cons c rest ih =>
      simp only [List.mem_cons, not_or] at h
      have hc : ¬c = 'Z' := fun e => h.1 e.symm
      simp [replaceZChars, hc, ih h.2]

theorem parse_date_idem (s : String) : parse_date (parse_date s) = parse_date s := by
  unfold parse_date
  simp [replaceZChars_id (replaceZChars_no_Z s.data)]

theorem updateCursor_swap (c : Option String) (a b : String) :
    updateCursor (updateCursor c a) b = updateCursor (updateCursor c b) a := by
  cases c <;> simp [updateCursor, max_comm, max_left_comm]

theorem trackCursor_some (i : String) (vs : List String) :
    trackCursor (some i) vs = some (vs.foldl max i) := by
  induction vs generalizing i with
  | nil => rfl
  | cons v t ih =>
      show trackCursor (some (max v i)) t = some ((v :: t).foldl max i)
      rw [ih, List.foldl_cons, max_comm v i]

theorem trackCursor_eq_max? (init : Option String) (vs : List String) :
    trackCursor init vs = (init.toList ++ vs).max? := by
  cases init with
  | none =>
      cases vs with
      | nil => rfl
      | cons v t =>
          show trackCursor (some v) t = (v :: t).max?
          rw [trackCursor_some]
          rfl
  | some i =>
      rw [trackCursor_some]
      rfl

theorem trackCursor_perm {vs₁ vs₂ : List String} (h : vs₁.Perm vs₂) :
    ∀ init, trackCursor init vs₁ = trackCursor init vs₂ := by
  induction h with
  | nil => intro init; rfl
  | cons x _ ih =>
      intro init
      show trackCursor (updateCursor init x) _ = trackCursor (updateCursor init x) _
      exact ih _
  | swap x y l =>
      intro init
      show trackCursor (updateCursor (updateCursor init y) x) l =
        trackCursor (updateCursor (updateCursor init x) y) l
      rw [updateCursor_swap]
  | trans _ _ ih₁ ih₂ =>
      intro init
      exact (ih₁ init).trans (ih₂ init)

theorem cursorLE_refl (c : Option String) : cursorLE c c := by
  cases c <;> simp [cursorLE]

theorem cursorLE_trans {a b c : Option String} (h₁ : cursorLE a b) (h₂ : cursorLE b c) :
    cursorLE a c := by
  cases a <;> cases b <;> cases c <;> simp_all [cursorLE]
  exact le_trans h₁ h₂

theorem updateCursor_le (c : Option String) (v : String) :
    cursorLE c (updateCursor c v) := by
  cases c with
  | none => trivial
  | some a => exact le_max_right v a

theorem trackCursor_append (init : Option String) (l₁ l₂ : List String) :
    trackCursor init (l₁ ++ l₂) = trackCursor (trackCursor init l₁) l₂ := by
  simp [trackCursor, List.foldl_append]

theorem trackCursor_le (l : List String) : ∀ c, cursorLE c (trackCursor c l) := by
  induction l with
  | nil => intro c; exact cursorLE_refl c
  | cons v t ih =>
      intro c
      exact cursorLE_trans (updateCursor_le c v) (ih (updateCursor c v))

/-- C1: in the read loop of `IncrementalFirestoreStream.read_records`,
after processing, in order, records with parsed cursor-field values
`vs` starting from any (possibly absent) cursor value, the tracked
cursor equals the maximum of the processed values and the initial
value; the result is the same for any permutation of the inputs; and
along the loop the tracked cursor never decreases. -/
theorem read_records_cursor_max (init : Option String) (vs : List String) :
    trackCursor init vs = (init.toList ++ vs).max? ∧
    (∀ vs', vs'.Perm vs → trackCursor init vs' = trackCursor init vs) ∧
    (∀ i j, i ≤ j →
      cursorLE (trackCursor init (vs.take i)) (trackCursor init (vs.take j))) := by
  refine ⟨trackCursor_eq_max? init vs, fun vs' h => trackCursor_perm h init, ?_⟩
  intro i j hij
  have hj : j = i + (j - i) := by omega
  rw [hj, List.take_add, trackCursor_append]
  exact trackCursor_le _ _

/-- Witness for C1 at a concrete run: initial value
`2024-01-01...`, records seen out of order. -/
theorem read_records_cursor_max_witness :
    trackCursor (some "2024-01-01T00:00:00+00:00")
        ["2024-01-03T00:00:00+00:00", "2024-01-02T00:00:00+00:00"] =
      ((some "2024-01-01T00:00:00+00:00").toList ++
        ["2024-01-03T00:00:00+00:00", "2024-01-02T00:00:00+00:00"]).max? ∧
    trackCursor (some "2024-01-01T00:00:00+00:00")
        ["2024-01-02T00:00:00+00:00", "2024-01-03T00:00:00+00:00"] =
      trackCursor (some "2024-01-01T00:00:00+00:00")
        ["2024-01-03T00:00:00+00:00", "2024-01-02T00:00:00+00:00"] ∧
    cursorLE
      (trackCursor (some "2024-01-01T00:00:00+00:00")
        (["2024-01-03T00:00:00+00:00", "2024-01-02T00:00:00+00:00"].take 1))
      (trackCursor (some "2024-01-01T00:00:00+00:00")
        (["2024-01-03T00:00:00+00:00", "2024-01-02T00:00:00+00:00"].take 2)) :=
  ⟨(read_records_cursor_max _ _).1,
   (read_records_cursor_max _ _).2.1 _
     (List.Perm.swap "2024-01-03T00:00:00+00:00" "2024-01-02T00:00:00+00:00" []),
   (read_records_cursor_max _ _).2.2 1 2 (by decide)⟩

/-- C6: `get_state` exports `{cursor_key: isoformat(value)}` when a
cursor value is tracked and the empty mapping otherwise; `set_state`
adopts the persisted value under the cursor key when present, else
falls back to the configured start date; restoring the exported state
reproduces the tracked value (for the isoformat-normalized values the
stream actually tracks), and export-then-restore is idempotent. -/
theorem state_roundtrip (ck : String) (sd : Option String) :
    (∀ d, get_state ck (some d) = [(ck, d)]) ∧
    get_state ck none = [] ∧
    (∀ persisted s, assocLookup ck persisted = some s →
      set_state ck sd persisted = some (parse_date s)) ∧
    (∀ persisted, assocLookup ck persisted = none →
      set_state ck sd persisted = sd) ∧
    (∀ d, parse_date d = d → set_state ck sd (get_state ck (some d)) = some d) ∧
    (∀ cv, (∀ s, sd = some s → parse_date s = s) →
      set_state ck sd (get_state ck (set_state ck sd (get_state ck cv))) =
        set_state ck sd (get_state ck cv)) := by
  refine ⟨fun d => rfl, rfl, ?_, ?_, ?_, ?_⟩
  · intro persisted s h
    simp [set_state, h]
  · intro persisted h
    simp [set_state, h]
  · intro d h
    simp [set_state, get_state, assocLookup, h]
  · intro cv hsd
    cases cv with
    | none =>
        cases h : sd with
        | none => simp [get_state, set_state, assocLookup, h]
        | some s =>
            simp [get_state, set_state, assocLookup, h, hsd s h]
    | some d =>
        simp [get_state, set_state, assocLookup, parse_date_idem]

/-- Witness for C6 at a concrete state: cursor key `updated_at`,
start date `2024-01-01...`, tracked value `2024-01-02...`. -/
theorem state_roundtrip_witness :
    set_state "updated_at" (some "2024-01-01T00:00:00+00:00")
        (get_state "updated_at" (some "2024-01-02T00:00:00+00:00")) =
      some "2024-01-02T00:00:00+00:00" ∧
    set_state "updated_at" (some "2024-01-01T00:00:00+00:00")
        (get_state "updated_at"
          (set_state "updated_at" (some "2024-01-01T00:00:00+00:00")
            (get_state "updated_at" none))) =
      set_state "updated_at" (some "2024-01-01T00:00:00+00:00")
        (get_state "updated_at" none) :=
  ⟨(state_roundtrip "updated_at" (some "2024-01-01T00:00:00+00:00")).2.2.2.2.1
      "2024-01-02T00:00:00+00:00" (by decide),
   (state_roundtrip "updated_at" (some "2024-01-01T00:00:00+00:00")).2.2.2.2.2
      none (fun s hs => by cases hs; decide)⟩

theorem parse_response_full_acc (data : List PyVal) :
    ∀ (recs : List (List (String × PyVal))) (fields : List (String × PyVal)),
      data.foldl
        (fun acc entry =>
          match documentOf entry with
          | some doc => (acc.1 ++ [recordOfDoc doc], acc.2 ++ schemaEntriesOfDoc doc)
          | none => acc)
        (recs, fields) =
      (recs ++ (data.filterMap documentOf).map recordOfDoc,
       fields ++ ((data.filterMap documentOf).map schemaEntriesOfDoc).flatten) := by
  induction data with
  | nil => intro recs fields; simp
  | cons entry rest ih =>
      intro recs fields
      cases h : documentOf entry with
      | none => simp [h, ih, List.filterMap_cons]
      | some doc => simp [h, ih, List.filterMap_cons]

theorem parse_response_eq (data : List PyVal) :
    parse_response data = (data.filterMap documentOf).map recordOfDoc := by
  simp [parse_response, parse_response_full, parse_response_full_acc]

theorem parse_response_full_fst (data : List PyVal) (fields0 : List (String × PyVal)) :
    (parse_response_full data fields0).1 = parse_response data := by
  simp [parse_response, parse_response_full, parse_response_full_acc]

theorem parse_response_full_snd (data : List PyVal) (fields0 : List (String × PyVal)) :
    (parse_response_full data fields0).2 =
      fields0 ++ ((data.filterMap documentOf).map schemaEntriesOfDoc).flatten := by
  simp [parse_response_full, parse_response_full_acc]

/-- C10: computing the next pagination token is not side-effect-free.
`next_page_token` re-invokes `parse_response`, so after a page has
been parsed once for record emission (first pass appends the page's
schema entries to `fields`) the token computation appends the very
same entries a second time; when the page contains a document with at
least one field, that appended block is nonempty. -/
theorem next_page_token_reparses (data : List PyVal) (fields0 : List (String × PyVal)) :
    (parse_response_full data fields0).2 =
      fields0 ++ ((data.filterMap documentOf).map schemaEntriesOfDoc).flatten ∧
    processPageFields data fields0 =
      fields0 ++ ((data.filterMap documentOf).map schemaEntriesOfDoc).flatten
              ++ ((data.filterMap documentOf).map schemaEntriesOfDoc).flatten ∧
    (∀ doc, doc ∈ data.filterMap documentOf → docFields doc ≠ [] →
      ((data.filterMap documentOf).map schemaEntriesOfDoc).flatten ≠ []) := by
  refine ⟨parse_response_full_snd data fields0, ?_, ?_⟩
  · simp [processPageFields, parse_response_full_snd]
  · intro doc hmem hfields
    intro hnil
    rw [List.flatten_eq_nil_iff] at hnil
    have h1 : schemaEntriesOfDoc doc = [] :=
      hnil _ (List.mem_map_of_mem schemaEntriesOfDoc hmem)
    rw [schemaEntriesOfDoc, List.map_eq_nil_iff] at h1
    exact hfields h1

/-- Witness for C10 at a one-document page with one field. -/
theorem next_page_token_reparses_witness :
    processPageFields [sampleEntry] [] =
      [] ++ (([sampleEntry].filterMap documentOf).map schemaEntriesOfDoc).flatten
         ++ (([sampleEntry].filterMap documentOf).map schemaEntriesOfDoc).flatten ∧
    (([sampleEntry].filterMap documentOf).map schemaEntriesOfDoc).flatten ≠ [] :=
  ⟨(next_page_token_reparses [sampleEntry] []).2.1,
   (next_page_token_reparses [sampleEntry] []).2.2
     ((documentOf sampleEntry).getD .pyNone) (by simp [sampleEntry, documentOf, assocLookup])
     (by simp [sampleEntry, documentOf, docFields, assocLookup])⟩

/-- C9 is violated by the code: `fields: List[str] = []` is a class
attribute of `FirestoreStream` that no constructor rebinds, so the
list is one object shared by every stream instance and
`self.fields.append` mutates it for all of them.  Concretely: with
two streams and an empty shared list, parsing a one-document response
on stream 0 changes what stream 1 reads as `self.fields` from `[]` to
a one-entry list. -/
theorem fields_shared_across_streams :
    fieldsOf ⟨[], ["collection_a", "collection_b"]⟩ 1 = [] ∧
    fieldsOf (parseOn ⟨[], ["collection_a", "collection_b"]⟩ 0 [sampleEntry]).1 1 =
      [("f", PyVal.pyDict [("type", PyVal.pyStr "string")])] ∧
    ([] : List (String × PyVal)) ≠ [("f", PyVal.pyDict [("type", PyVal.pyStr "string")])] :=
  ⟨rfl, rfl, by simp⟩

/-- C5 is wrong about the code: the source tests `isinstance(value,
int)` before `isinstance(value, bool)`, and Python's `bool` is a
subclass of `int`, so a boolean is classified as `{"type": "integer"}`
(the boolean branch is unreachable), not `{"type": "boolean"}` as the
claim requires. -/
theorem boolean_schema_is_integer :
    get_json_schema_type (PyVal.pyBool true) = PyVal.pyDict [("type", PyVal.pyStr "integer")] ∧
    get_json_schema_type (PyVal.pyBool false) = PyVal.pyDict [("type", PyVal.pyStr "integer")] ∧
    get_json_schema_type (PyVal.pyBool true) ≠ PyVal.pyDict [("type", PyVal.pyStr "boolean")] :=
  ⟨rfl, rfl, by simp [get_json_schema_type, pySize, schemaFuel]⟩

/-- C3 is violated by the code at a page with one document and no
configured cursor field: `next_page_token` returns `None` even though
the page yielded a record (there is no `stringValue`/document-name
fallback in the source), so "token present iff the previous page
returned at least one document" fails. -/
theorem next_page_token_no_cursor_counterexample :
    next_page_token_value none [sampleEntry] = none ∧
    (parse_response [sampleEntry]).length = 1 :=
  ⟨rfl, rfl⟩

/-- C3 as amended: the token is `None` exactly when the page yielded
zero parsed records or no cursor field is configured; otherwise it is
`{"timestampValue": <last record's cursor-field value>}`, the value
taken from the last parsed record unformatted. -/
theorem next_page_token_spec (ck : Option String) (data : List PyVal) :
    (next_page_token_value ck data = none ↔ (parse_response data = [] ∨ ck = none)) ∧
    (∀ k lastDoc, ck = some k → (parse_response data).getLast? = some lastDoc →
      next_page_token_value ck data =
        some (.pyDict [("timestampValue", (assocLookup k lastDoc).getD .pyNone)])) := by
  constructor
  · cases h : (parse_response data).getLast? with
    | none =>
        have hnil : parse_response data = [] := by
          by_contra hne
          have := (List.getLast?_isSome (l := parse_response data)).2 hne
          rw [h] at this
          simp at this
        simp [next_page_token_value, h, hnil]
    | some lastDoc =>
        have hne : parse_response data ≠ [] := by
          intro hnil
          rw [hnil] at h
          simp at h
        cases ck with
        | none => simp [next_page_token_value, h]
        | some k => simp [next_page_token_value, h, hne]
  · intro k lastDoc hck hlast
    subst hck
    simp [next_page_token_value, hlast]

/-- Witness for C3's amended claim: cursor field `f`, a one-document
page whose `f` resolves to `"v"`. -/
theorem next_page_token_spec_witness :
    next_page_token_value (some "f") [sampleEntry] =
      some (.pyDict [("timestampValue",
        (assocLookup "f" [("name",
            PyVal.pyStr "projects/p/databases/d/documents/c/d1"),
          ("f", PyVal.pyStr "v")]).getD .pyNone)]) :=
  (next_page_token_spec (some "f") [sampleEntry]).2 "f"
    [("name", PyVal.pyStr "projects/p/databases/d/documents/c/d1"),
     ("f", PyVal.pyStr "v")] rfl rfl

/-- C2 is violated by the code on the no-cursor, no-token call: the
dictionary literal binds `"startAt"` to `None` and the `del`
statements remove only `"where"` and `"orderBy"`, so the produced body
still contains the `startAt` key (bound to JSON null) instead of
lacking it. -/
theorem request_body_startAt_null_counterexample :
    assocLookup "where" (structuredQueryOf (request_body_json "c" none [] none)) = none ∧
    assocLookup "orderBy" (structuredQueryOf (request_body_json "c" none [] none)) = none ∧
    assocLookup "startAt" (structuredQueryOf (request_body_json "c" none [] none)) =
      some PyVal.pyNone ∧
    some PyVal.pyNone ≠ (none : Option PyVal) :=
  ⟨rfl, rfl, rfl, by simp⟩

/-- C2 as amended: with no cursor value and no token the body lacks
`where` and `orderBy` but carries `startAt` bound to null; with a
cursor key and a cursor value it carries the `GREATER_THAN`
`fieldFilter` on that key with the ISO-formatted value under
`timestampValue`, plus an ascending `orderBy` on the key; with a
(truthy) pagination token it carries
`startAt = {values: [token], before: false}`. -/
theorem request_body_shape (collection : String) (ck : Option String)
    (st : List (String × String)) (token : Option PyVal) :
    (timestampValueOf ck st = none → token = none →
      assocLookup "where" (structuredQueryOf (request_body_json collection ck st token)) = none ∧
      assocLookup "orderBy" (structuredQueryOf (request_body_json collection ck st token)) = none ∧
      assocLookup "startAt" (structuredQueryOf (request_body_json collection ck st token)) =
        some PyVal.pyNone) ∧
    (∀ k tv, ck = some k → timestampValueOf ck st = some tv →
      assocLookup "where" (structuredQueryOf (request_body_json collection ck st token)) =
        some (.pyDict [("fieldFilter", .pyDict
          [("field", .pyDict [("fieldPath", .pyStr k)]),
           ("op", .pyStr "GREATER_THAN"),
           ("value", .pyDict [("timestampValue", .pyStr tv)])])]) ∧
      assocLookup "orderBy" (structuredQueryOf (request_body_json collection ck st token)) =
        some (.pyList [.pyDict [("field", .pyDict [("fieldPath", .pyStr k)]),
                               ("direction", .pyStr "ASCENDING")]])) ∧
    (∀ t, token = some t → pyTruthy t = true →
      assocLookup "startAt" (structuredQueryOf (request_body_json collection ck st token)) =
        some (.pyDict [("values", .pyList [t]), ("before", .pyBool false)])) := by
  refine ⟨?_, ?_, ?_⟩
  · intro htv htok
    subst htok
    simp [request_body_json, htv, structuredQueryOf, eraseKey, assocLookup]
  · intro k tv hck htv
    subst hck
    have hne : ¬(some k = none ∨ timestampValueOf (some k) st = none) := by
      simp [htv]
    simp [request_body_json, htv, hne, structuredQueryOf, assocLookup, keyVal]
  · intro t htok htr
    subst htok
    by_cases hcond : (ck = none ∨ timestampValueOf ck st = none)
    · simp [request_body_json, hcond, htr, structuredQueryOf, eraseKey, assocLookup]
    · simp [request_body_json, hcond, htr, structuredQueryOf, assocLookup]

/-- Witness for C2's amended claim: the three call shapes at concrete
inputs (note the `Z`-suffixed persisted value is ISO-formatted to a
`+00:00` offset in the filter). -/
theorem request_body_shape_witness :
    (assocLookup "where" (structuredQueryOf (request_body_json "orders" none [] none)) = none ∧
     assocLookup "orderBy" (structuredQueryOf (request_body_json "orders" none [] none)) = none ∧
     assocLookup "startAt" (structuredQueryOf (request_body_json "orders" none [] none)) =
       some PyVal.pyNone) ∧
    (assocLookup "where" (structuredQueryOf (request_body_json "orders" (some "updated_at")
        [("updated_at", "2024-01-02T00:00:00Z")] none)) =
      some (.pyDict [("fieldFilter", .pyDict
        [("field", .pyDict [("fieldPath", .pyStr "updated_at")]),
         ("op", .pyStr "GREATER_THAN"),
         ("value", .pyDict [("timestampValue", .pyStr "2024-01-02T00:00:00+00:00")])])]) ∧
     assocLookup "orderBy" (structuredQueryOf (request_body_json "orders" (some "updated_at")
        [("updated_at", "2024-01-02T00:00:00Z")] none)) =
      some (.pyList [.pyDict [("field", .pyDict [("fieldPath", .pyStr "updated_at")]),
                              ("direction", .pyStr "ASCENDING")]])) ∧
    assocLookup "startAt" (structuredQueryOf (request_body_json "orders" none []
        (some (.pyDict [("timestampValue", .pyStr "2024-01-02T00:00:00+00:00")])))) =
      some (.pyDict [("values",
        .pyList [.pyDict [("timestampValue", .pyStr "2024-01-02T00:00:00+00:00")]]),
        ("before", .pyBool false)]) :=
  ⟨(request_body_shape "orders" none [] none).1 rfl rfl,
   (request_body_shape "orders" (some "updated_at")
      [("updated_at", "2024-01-02T00:00:00Z")] none).2.1
      "updated_at" "2024-01-02T00:00:00+00:00" rfl rfl,
   (request_body_shape "orders" none []
      (some (.pyDict [("timestampValue", .pyStr "2024-01-02T00:00:00+00:00")]))).2.2
      (.pyDict [("timestampValue", .pyStr "2024-01-02T00:00:00+00:00")]) rfl rfl⟩

theorem pySize_pos (v : PyVal) : 1 ≤ pySize v := by
  cases v <;> simp [pySize]

theorem pySize_lt_of_mem_list {x : PyVal} {xs : List PyVal} (h : x ∈ xs) :
    pySize x < pySizeList xs := by
  induction xs with
  | nil => cases h
  | cons y rest ih =>
      rcases List.mem_cons.1 h with rfl | h'
      · simp [pySizeList]
        omega
      · have := ih h'
        simp [pySizeList]
        omega

theorem pySize_lt_of_mem_fields {k0 : String} {w : PyVal} {fs : List (String × PyVal)}
    (h : (k0, w) ∈ fs) : pySize w < pySizeFields fs := by
  induction fs with
  | nil => cases h
  | cons kv rest ih =>
      obtain ⟨k', v'⟩ := kv
      rcases List.mem_cons.1 h with heq | h'
      · obtain ⟨rfl, rfl⟩ := Prod.mk.injEq .. ▸ heq
        simp [pySizeFields]
        omega
      · have := ih h'
        simp [pySizeFields]
        omega

theorem pySize_lookup {k : String} {kvs : List (String × PyVal)} {v : PyVal}
    (h : assocLookup k kvs = some v) : pySize v < pySizeFields kvs := by
  induction kvs with
  | nil => simp [assocLookup] at h
  | cons kv rest ih =>
      obtain ⟨k', v'⟩ := kv
      by_cases hk : k' = k
      · rw [assocLookup, if_pos hk] at h
        obtain rfl : v' = v := Option.some.inj h
        simp [pySizeFields]
        omega
      · rw [assocLookup, if_neg hk] at h
        have := ih h
        simp [pySizeFields]
        omega

theorem pySize_arrayElems {x av : PyVal} (h : x ∈ arrayElems av) :
    pySize x < pySize av := by
  cases av
  case pyDict kvs =>
    simp only [arrayElems] at h
    split at h
    case _ xs heq =>
      have h1 := pySize_lt_of_mem_list h
      have h2 := pySize_lookup heq
      simp only [pySize] at h2 ⊢
      omega
    case _ => simp at h
  all_goals simp [arrayElems] at h

theorem pySize_mapFields {k0 : String} {w mv : PyVal} (h : (k0, w) ∈ mapFields mv) :
    pySize w < pySize mv := by
  cases mv
  case pyDict kvs =>
    simp only [mapFields] at h
    split at h
    case _ fs heq =>
      have h1 := pySize_lt_of_mem_fields h
      have h2 := pySize_lookup heq
      simp only [pySize] at h2 ⊢
      omega
    case _ => simp at h
  all_goals simp [mapFields] at h

theorem resolveFuel_irrel (n : Nat) :
    ∀ (v : PyVal) (m : Nat), pySize v ≤ n → pySize v ≤ m →
      resolveFuel n v = resolveFuel m v := by
  induction n using Nat.strong_induction_on with
  | _ n ih =>
      intro v m hn hm
      cases n with
      | zero => exact absurd hn (by have := pySize_pos v; omega)
      | succ a =>
          cases m with
          | zero => exact absurd hm (by have := pySize_pos v; omega)
          | succ b =>
              cases v with
              | pyDict kvs =>
                  simp only [pySize] at hn hm
                  simp only [resolveFuel]
                  cases h₁ : assocLookup "arrayValue" kvs with
                  | some av =>
                      simp only [h₁]
                      refine congrArg PyVal.pyList (List.map_congr_left ?_)
                      intro x hx
                      have hx1 := pySize_arrayElems hx
                      have hx2 := pySize_lookup h₁
                      exact ih a (by omega) x b (by omega) (by omega)
                  | none =>
                      simp only [h₁]
                      cases h₂ : assocLookup "mapValue" kvs with
                      | some mv =>
                          simp only [h₂]
                          refine congrArg PyVal.pyDict (List.map_congr_left ?_)
                          intro kv hkv
                          obtain ⟨k0, w⟩ := kv
                          have hw : pySize w < pySize mv := pySize_mapFields hkv
                          have h2' := pySize_lookup h₂
                          have : resolveFuel a w = resolveFuel b w :=
                            ih a (by omega) w b (by omega) (by omega)
                          simp [this]
                      | none => simp only [h₂]
              | pyNone => rfl
              | pyBool b' => rfl
              | pyInt n' => rfl
              | pyFloat q => rfl
              | pyStr s => rfl
              | pyList xs => rfl
              | pyDatetime iso => rfl

theorem resolve_value_dict (kvs : List (String × PyVal)) :
    resolve_value (.pyDict kvs) = resolveFuel (pySizeFields kvs + 1) (.pyDict kvs) := by
  have h : pySize (PyVal.pyDict kvs) = pySizeFields kvs + 1 := by
    simp [pySize]
    omega
  rw [resolve_value, h]

theorem resolveFuel_map_list (av : PyVal) (fuel : Nat) (h : pySize av ≤ fuel) :
    (arrayElems av).map (resolveFuel fuel) = (arrayElems av).map resolve_value := by
  apply List.map_congr_left
  intro x hx
  have := pySize_arrayElems hx
  exact resolveFuel_irrel fuel x (pySize x) (by omega) (le_refl _)

theorem resolveFuel_map_fields (mv : PyVal) (fuel : Nat) (h : pySize mv ≤ fuel) :
    (mapFields mv).map (fun kv => (kv.1, resolveFuel fuel kv.2)) =
      (mapFields mv).map (fun kv => (kv.1, resolve_value kv.2)) := by
  apply List.map_congr_left
  intro kv hkv
  obtain ⟨k0, w⟩ := kv
  have := pySize_mapFields hkv
  have he : resolveFuel fuel w = resolve_value w :=
    resolveFuel_irrel fuel w (pySize w) (by omega) (le_refl _)
  simp [he]

/-- C4: `resolve_value` on any input mapping follows the source's tag
dispatch: `arrayValue` resolves each element recursively, `mapValue`
resolves each field recursively preserving keys, `integerValue` /
`doubleValue` / `booleanValue` parse with Python's `int` / `float` /
`bool`, `timestampValue` parses the ISO instant with the `Z`
replacement of `Helpers.parse_date`, `stringValue` passes through
unchanged, `nullValue` yields `None`, and a mapping with none of the
eight tags is returned unchanged.  Tags are tested in source order, so
each conjunct assumes the earlier tags are absent. -/
theorem resolve_value_spec (kvs : List (String × PyVal)) :
    (∀ av, assocLookup "arrayValue" kvs = some av →
      resolve_value (.pyDict kvs) = .pyList ((arrayElems av).map resolve_value)) ∧
    (assocLookup "arrayValue" kvs = none →
      ∀ mv, assocLookup "mapValue" kvs = some mv →
      resolve_value (.pyDict kvs) =
        .pyDict ((mapFields mv).map (fun kv => (kv.1, resolve_value kv.2)))) ∧
    (assocLookup "arrayValue" kvs = none → assocLookup "mapValue" kvs = none →
      ∀ iv, assocLookup "integerValue" kvs = some iv →
      resolve_value (.pyDict kvs) = pyIntConv iv) ∧
    (assocLookup "arrayValue" kvs = none → assocLookup "mapValue" kvs = none →
      assocLookup "integerValue" kvs = none →
      ∀ dv, assocLookup "doubleValue" kvs = some dv →
      resolve_value (.pyDict kvs) = pyFloatConv dv) ∧
    (assocLookup "arrayValue" kvs = none → assocLookup "mapValue" kvs = none →
      assocLookup "integerValue" kvs = none → assocLookup "doubleValue" kvs = none →
      ∀ bv, assocLookup "booleanValue" kvs = some bv →
      resolve_value (.pyDict kvs) = .pyBool (pyTruthy bv)) ∧
    (assocLookup "arrayValue" kvs = none → assocLookup "mapValue" kvs = none →
      assocLookup "integerValue" kvs = none → assocLookup "doubleValue" kvs = none →
      assocLookup "booleanValue" kvs = none →
      ∀ tv, assocLookup "timestampValue" kvs = some tv →
      resolve_value (.pyDict kvs) = pyParseDate tv) ∧
    (assocLookup "arrayValue" kvs = none → assocLookup "mapValue" kvs = none →
      assocLookup "integerValue" kvs = none → assocLookup "doubleValue" kvs = none →
      assocLookup "booleanValue" kvs = none → assocLookup "timestampValue" kvs = none →
      ∀ sv, assocLookup "stringValue" kvs = some sv →
      resolve_value (.pyDict kvs) = sv) ∧
    (assocLookup "arrayValue" kvs = none → assocLookup "mapValue" kvs = none →
      assocLookup "integerValue" kvs = none → assocLookup "doubleValue" kvs = none →
      assocLookup "booleanValue" kvs = none → assocLookup "timestampValue" kvs = none →
      assocLookup "stringValue" kvs = none →
      ∀ nv, assocLookup "nullValue" kvs = some nv →
      resolve_value (.pyDict kvs) = .pyNone) ∧
    (assocLookup "arrayValue" kvs = none → assocLookup "mapValue" kvs = none →
      assocLookup "integerValue" kvs = none → assocLookup "doubleValue" kvs = none →
      assocLookup "booleanValue" kvs = none → assocLookup "timestampValue" kvs = none →
      assocLookup "stringValue" kvs = none → assocLookup "nullValue" kvs = none →
      resolve_value (.pyDict kvs) = .pyDict kvs) := by
  refine ⟨?_, ?_, ?_, ?_, ?_, ?_, ?_, ?_, ?_⟩
  · intro av h₁
    rw [resolve_value_dict]
    simp only [resolveFuel, h₁]
    have := pySize_lookup h₁
    rw [resolveFuel_map_list av (pySizeFields kvs) (by omega)]
  · intro h₁ mv h₂
    rw [resolve_value_dict]
    simp only [resolveFuel, h₁, h₂]
    have := pySize_lookup h₂
    rw [resolveFuel_map_fields mv (pySizeFields kvs) (by omega)]
  · intro h₁ h₂ iv h₃
    rw [resolve_value_dict]
    simp only [resolveFuel, h₁, h₂, h₃]
  · intro h₁ h₂ h₃ dv h₄
    rw [resolve_value_dict]
    simp only [resolveFuel, h₁, h₂, h₃, h₄]
  · intro h₁ h₂ h₃ h₄ bv h₅
    rw [resolve_value_dict]
    simp only [resolveFuel, h₁, h₂, h₃, h₄, h₅]
  · intro h₁ h₂ h₃ h₄ h₅ tv h₆
    rw [resolve_value_dict]
    simp only [resolveFuel, h₁, h₂, h₃, h₄, h₅, h₆]
  · intro h₁ h₂ h₃ h₄ h₅ h₆ sv h₇
    rw [resolve_value_dict]
    simp only [resolveFuel, h₁, h₂, h₃, h₄, h₅, h₆, h₇]
  · intro h₁ h₂ h₃ h₄ h₅ h₆ h₇ nv h₈
    rw [resolve_value_dict]
    simp only [resolveFuel, h₁, h₂, h₃, h₄, h₅, h₆, h₇, h₈]
  · intro h₁ h₂ h₃ h₄ h₅ h₆ h₇ h₈
    rw [resolve_value_dict]
    simp only [resolveFuel, h₁, h₂, h₃, h₄, h₅, h₆, h₇, h₈]

/-- Witness for C4 at concrete tagged values: an integer tag, a
timestamp tag (with a trailing `Z`), a nested array tag and an
unrecognized tag. -/
theorem resolve_value_spec_witness :
    resolve_value (.pyDict [("integerValue", .pyStr "42")]) = .pyInt 42 ∧
    resolve_value (.pyDict [("timestampValue", .pyStr "2024-01-03T00:00:00Z")]) =
      .pyDatetime "2024-01-03T00:00:00+00:00" ∧
    resolve_value (.pyDict [("arrayValue",
        .pyDict [("values", .pyList [.pyDict [("nullValue", .pyNone)]])])]) =
      .pyList [.pyNone] ∧
    resolve_value (.pyDict [("geoPointValue", .pyStr "x")]) =
      .pyDict [("geoPointValue", .pyStr "x")] :=
  ⟨((resolve_value_spec [("integerValue", .pyStr "42")]).2.2.1 rfl rfl
      (.pyStr "42") rfl).trans rfl,
   ((resolve_value_spec [("timestampValue", .pyStr "2024-01-03T00:00:00Z")]).2.2.2.2.2.1
      rfl rfl rfl rfl rfl (.pyStr "2024-01-03T00:00:00Z") rfl).trans rfl,
   ((resolve_value_spec [("arrayValue",
        .pyDict [("values", .pyList [.pyDict [("nullValue", .pyNone)]])])]).1
      (.pyDict [("values", .pyList [.pyDict [("nullValue", .pyNone)]])]) rfl).trans rfl,
   (resolve_value_spec [("geoPointValue", .pyStr "x")]).2.2.2.2.2.2.2.2
      rfl rfl rfl rfl rfl rfl rfl rfl⟩

/-- C7: a stub returning `N` non-empty pages (each of at most
`page_size` records) followed by one empty page makes the drive loop
emit exactly the concatenation of all pages' records and perform
exactly `N + 1` fetches before terminating.  The loop itself is
framework code, modelled from the spec in `drainPages`; the stopping
token is the source's `next_page_token_value` with a configured
cursor field. -/
theorem drainPages_spec (k : String) (pages : List (List PyVal))
    (h : ∀ resp ∈ pages,
      parse_response resp ≠ [] ∧ (parse_response resp).length ≤ page_size) :
    drainPages (some k) (pages ++ [[]]) =
      ((pages.map parse_response).flatten, pages.length + 1) := by
  induction pages with
  | nil => rfl
  | cons p rest ih =>
      have hp := h p (List.mem_cons_self p rest)
      obtain ⟨lastDoc, hl⟩ :=
        Option.isSome_iff_exists.1 ((List.getLast?_isSome (l := parse_response p)).2 hp.1)
      have htok : next_page_token_value (some k) p =
          some (.pyDict [("timestampValue", (assocLookup k lastDoc).getD .pyNone)]) := by
        simp [next_page_token_value, hl]
      simp only [List.cons_append, drainPages, htok, List.append_eq]
      rw [ih (fun resp hr => h resp (List.mem_cons_of_mem p hr))]
      simp

/-- Witness for C7: one non-empty page (one document) and the empty
final page: the loop emits that page's single record and fetches
twice. -/
theorem drainPages_spec_witness :
    drainPages (some "f") ([[sampleEntry]] ++ [[]]) =
      (([[sampleEntry]].map parse_response).flatten, [[sampleEntry]].length + 1) :=
  drainPages_spec "f" [[sampleEntry]] (by
    intro resp hr
    rw [List.mem_singleton] at hr
    subst hr
    refine ⟨?_, by decide⟩
    intro hnil
    have hlen : (parse_response [sampleEntry]).length = 1 := rfl
    rw [hnil] at hlen
    simp at hlen)

theorem dictInsert_fresh {α : Type} (l : List (String × α)) (k : String) (v : α)
    (h : k ∉ l.map Prod.fst) : dictInsert l k v = l ++ [(k, v)] := by
  induction l with
  | nil => rfl
  | cons kv rest ih =>
      obtain ⟨k', v'⟩ := kv
      simp only [List.map_cons, List.mem_cons, not_or] at h
      rw [dictInsert, if_neg (fun e => h.1 e.symm), ih h.2]
      rfl

theorem foldl_dictInsert (F : PyVal → PyVal) (kvs : List (String × PyVal)) :
    ∀ r0 : List (String × PyVal), (kvs.map Prod.fst).Nodup →
      (∀ k ∈ kvs.map Prod.fst, k ∉ r0.map Prod.fst) →
      kvs.foldl (fun r kv => dictInsert r kv.1 (F kv.2)) r0 =
        r0 ++ kvs.map (fun kv => (kv.1, F kv.2)) := by
  induction kvs with
  | nil => intro r0 _ _; simp
  | cons kv rest ih =>
      intro r0 hnodup hfresh
      obtain ⟨k, v⟩ := kv
      simp only [List.map_cons] at hnodup hfresh
      simp only [List.foldl_cons]
      rw [dictInsert_fresh r0 k (F v) (hfresh k (by simp))]
      rw [ih (r0 ++ [(k, F v)]) hnodup.of_cons ?_]
      · simp
      · intro k' hk'
        simp only [List.map_append, List.map_cons, List.map_nil, List.mem_append,
          List.mem_singleton, not_or]
        refine ⟨hfresh k' (by simp [hk']), ?_⟩
        intro e
        subst e
        exact (List.nodup_cons.1 hnodup).1 hk'

theorem assocLookup_map (F : PyVal → PyVal) {kvs : List (String × PyVal)}
    {k : String} {v : PyVal}
    (hnodup : (kvs.map Prod.fst).Nodup) (hmem : (k, v) ∈ kvs) :
    assocLookup k (kvs.map (fun kv => (kv.1, F kv.2))) = some (F v) := by
  induction kvs with
  | nil => cases hmem
  | cons kv rest ih =>
      obtain ⟨k', v'⟩ := kv
      simp only [List.map_cons] at hnodup ⊢
      rcases List.mem_cons.1 hmem with heq | h'
      · cases heq
        simp [assocLookup]
      · have hk : ¬(k' = k) := by
          intro e
          subst e
          exact (List.nodup_cons.1 hnodup).1 (List.mem_map_of_mem Prod.fst h')
        rw [assocLookup, if_neg hk]
        exact ih (List.nodup_cons.1 hnodup).2 h'

theorem recordOfDoc_eq (doc : PyVal)
    (hnodup : ((docFields doc).map Prod.fst).Nodup)
    (hname : "name" ∉ (docFields doc).map Prod.fst) :
    recordOfDoc doc =
      ("name", docName doc) :: (docFields doc).map (fun kv => (kv.1, resolve_value kv.2)) := by
  rw [recordOfDoc, foldl_dictInsert resolve_value (docFields doc)
    [("name", docName doc)] hnodup ?_]
  · simp
  · intro k hk
    simp only [List.map_cons, List.map_nil, List.mem_singleton]
    intro e
    subst e
    exact hname hk

/-- C8 as amended: `parse_response` yields one record per response
entry carrying a `"document"` key and skips every other entry; each
record starts from the document's fully-qualified path under `"name"`
and adds one top-level key per document field with that field's
resolved value (so a field literally named `"name"` overwrites the
path); and each field's `(name, inferred schema)` pair is appended, in
order, to the stream's fields list as a side effect.  The per-field
lookup facts are stated for documents whose field keys are distinct
(JSON object keys are) and do not include `"name"`. -/
theorem parse_response_spec (data : List PyVal) (fields0 : List (String × PyVal)) :
    parse_response data = (data.filterMap documentOf).map recordOfDoc ∧
    (parse_response_full data fields0).1 = parse_response data ∧
    (parse_response_full data fields0).2 =
      fields0 ++ ((data.filterMap documentOf).map schemaEntriesOfDoc).flatten ∧
    (∀ doc, ((docFields doc).map Prod.fst).Nodup →
      "name" ∉ (docFields doc).map Prod.fst →
      assocLookup "name" (recordOfDoc doc) = some (docName doc) ∧
      (∀ k v, (k, v) ∈ docFields doc →
        assocLookup k (recordOfDoc doc) = some (resolve_value v))) := by
  refine ⟨parse_response_eq data, parse_response_full_fst data fields0,
    parse_response_full_snd data fields0, ?_⟩
  intro doc hnodup hname
  rw [recordOfDoc_eq doc hnodup hname]
  constructor
  · simp [assocLookup]
  · intro k v hmem
    have hk : ¬("name" = k) := by
      intro e
      subst e
      exact hname (List.mem_map_of_mem Prod.fst hmem)
    rw [assocLookup, if_neg hk]
    exact assocLookup_map resolve_value hnodup hmem

/-- Witness for C8's amended claim at a one-document response. -/
theorem parse_response_spec_witness :
    parse_response [sampleEntry] = ([sampleEntry].filterMap documentOf).map recordOfDoc ∧
    assocLookup "name" (recordOfDoc ((documentOf sampleEntry).getD .pyNone)) =
      some (docName ((documentOf sampleEntry).getD .pyNone)) ∧
    assocLookup "f" (recordOfDoc ((documentOf sampleEntry).getD .pyNone)) =
      some (resolve_value (.pyDict [("stringValue", .pyStr "v")])) :=
  ⟨(parse_response_spec [sampleEntry] []).1,
   ((parse_response_spec [sampleEntry] []).2.2.2
      ((documentOf sampleEntry).getD .pyNone) (by decide) (by decide)).1,
   ((parse_response_spec [sampleEntry] []).2.2.2
      ((documentOf sampleEntry).getD .pyNone) (by decide) (by decide)).2
      "f" (.pyDict [("stringValue", .pyStr "v")]) (List.Mem.head [])⟩

/-- C8 is violated by the code when a document carries a field
literally named `"name"`: the field's resolved value overwrites the
document's fully-qualified path in the record. -/
theorem parse_response_name_overwrite_counterexample :
    parse_response [nameFieldEntry] = [[("name", PyVal.pyStr "zzz")]] ∧
    docName ((documentOf nameFieldEntry).getD .pyNone) =
      .pyStr "projects/p/databases/d/documents/c/d2" ∧
    "zzz" ≠ "projects/p/databases/d/documents/c/d2" :=
  ⟨rfl, rfl, by decide⟩

end Firestore
